import Mathlib

set_option linter.unusedVariables false

/-! Formal model of the step-execution core of the lorikeet check runner
(`src/step.rs`): the step data model, the four run-action variants, the four
expectation variants, outcome capture, and the process-wide cookie jar.
Effectful collaborators (the spawned shell process, the network, the system
probes, the wall clock) are modelled as explicit environment records that
supply the values the operating system would return, so that the pure
dispatch, error-classification and cookie logic of `step.rs` can be stated
and proved.  Rust `f64` values are modelled as exact rationals extended with
the infinities and NaN; rounding of decimal literals to binary floats is not
modelled. -/

namespace Lorikeet

/-- Model of `std::time::Duration`; the executor only passes it through. -/
structure Duration where
  secs : Nat
  nanos : Nat
deriving DecidableEq

instance exceptDecEq {α β : Type} [DecidableEq α] [DecidableEq β] :
    DecidableEq (Except α β) := fun x y =>
  match x, y with
  | .ok a, .ok b => if h : a = b then .isTrue (by rw [h]) else .isFalse (by simp [h])
  | .error a, .error b => if h : a = b then .isTrue (by rw [h]) else .isFalse (by simp [h])
  | .ok _, .error _ => .isFalse (by simp)
  | .error _, .ok _ => .isFalse (by simp)

/-- Rust `Outcome`: an `Ok` payload or `Err` failure message, plus the
elapsed wall-clock duration of the execution. -/
structure Outcome where
  result : Except String String
  duration : Duration
deriving DecidableEq

/-- Rust `Requirement`: one dependency name or a list of names. -/
inductive Requirement
  | Some (name : String)
  | Many (names : List String)
deriving DecidableEq

/-- Rust `Requirement::to_vec`: normalize to an ordered list. -/
def Requirement.to_vec : Requirement → List String
  | .Some s => [s]
  | .Many l => l

/-- Model of `reqwest::Method` (hyper 0.11 method enum). -/
inductive Method
  | Options
  | Get
  | Head
  | Post
  | Put
  | Delete
  | Patch
  | Extension (verb : String)
deriving DecidableEq

/-- Rust `default_output`. -/
def default_output : Bool := true

/-- Rust `default_cookies`. -/
def default_cookies : Bool := false

/-- Rust `default_status` (`u16`, modelled as `Nat`). -/
def default_status : Nat := 200

/-- Rust `HttpOptions`; the `form` HashMap is modelled as an association
list. -/
structure HttpOptions where
  url : String
  method : Method
  get_output : Bool
  save_cookies : Bool
  status : Nat
  user : Option String
  pass : Option String
  form : Option (List (String × String))
deriving DecidableEq

/-- Rust `BashOptions`. -/
structure BashOptions where
  cmd : String
  get_output : Bool
deriving DecidableEq

/-- Rust `BashVariant`: bare command string or full options. -/
inductive BashVariant
  | CmdOnly (cmd : String)
  | Options (opts : BashOptions)
deriving DecidableEq

/-- Rust `HttpVariant`: bare URL string or full options. -/
inductive HttpVariant
  | UrlOnly (url : String)
  | Options (opts : HttpOptions)
deriving DecidableEq

/-- Rust `SystemVariant`. -/
inductive SystemVariant
  | MemTotal
  | MemFree
  | MemAvailable
  | LoadAvg1m
  | LoadAvg5m
  | LoadAvg15m
  | DiskTotal
  | DiskFree
deriving DecidableEq

/-- Rust `RunType`. -/
inductive RunType
  | Value (val : String)
  | Bash (val : BashVariant)
  | Http (val : HttpVariant)
  | System (val : SystemVariant)
deriving DecidableEq

/-- Rust `f64` values as this model sees them: exact rationals extended with
the two infinities and NaN.  Decimal literals denote their exact rational
value (rounding to binary floats is not modelled). -/
inductive FVal
  | nan
  | inf
  | negInf
  | fin (q : ℚ)
deriving DecidableEq

/-- IEEE comparison `a > b` (any comparison with NaN is false). -/
def FVal.gt : FVal → FVal → Bool
  | .nan, _ => false
  | _, .nan => false
  | .inf, .inf => false
  | .inf, _ => true
  | .negInf, _ => false
  | _, .inf => false
  | _, .negInf => true
  | .fin a, .fin b => b < a

/-- IEEE comparison `a < b` (any comparison with NaN is false). -/
def FVal.lt (a b : FVal) : Bool := FVal.gt b a

/-- Numeric value of a digit string (most significant first). -/
def digitsVal (l : List Char) : Nat :=
  l.foldl (fun acc c => 10 * acc + (c.toNat - 48)) 0

/-- Model of Rust `str::parse::<f64>`: optional sign, then `inf`,
`infinity` or `nan` (case-insensitive), or a decimal significand with an
optional exponent.  Returns `none` on any input the Rust parser rejects. -/
def parseF64 (s : String) : Option FVal :=
  let l0 := s.data.map Char.toLower
  let signed : Bool × List Char :=
    match l0 with
    | '+' :: rest => (false, rest)
    | '-' :: rest => (true, rest)
    | _ => (false, l0)
  let neg := signed.1
  let l := signed.2
  if l = ['i', 'n', 'f'] ∨ l = ['i', 'n', 'f', 'i', 'n', 'i', 't', 'y'] then
    some (if neg then FVal.negInf else FVal.inf)
  else if l = ['n', 'a', 'n'] then
    some FVal.nan
  else
    let ip := l.takeWhile Char.isDigit
    let l1 := l.dropWhile Char.isDigit
    let fracPart : List Char × List Char :=
      match l1 with
      | '.' :: rest => (rest.takeWhile Char.isDigit, rest.dropWhile Char.isDigit)
      | _ => ([], l1)
    let fp := fracPart.1
    let l2 := fracPart.2
    if ip = [] ∧ fp = [] then none
    else
      let mantNum : Nat := digitsVal ip * 10 ^ fp.length + digitsVal fp
      let mantDen : Nat := 10 ^ fp.length
      let signIt : Nat → Int := fun n => if neg then -(n : Int) else (n : Int)
      match l2 with
      | [] => some (FVal.fin (mkRat (signIt mantNum) mantDen))
      | 'e' :: erest =>
        let esigned : Bool × List Char :=
          match erest with
          | '+' :: r => (false, r)
          | '-' :: r => (true, r)
          | _ => (false, erest)
        let eneg := esigned.1
        let ed := esigned.2.takeWhile Char.isDigit
        if ed = [] ∨ esigned.2.dropWhile Char.isDigit ≠ [] then none
        else
          some (FVal.fin
            (if eneg then mkRat (signIt mantNum) (mantDen * 10 ^ digitsVal ed)
             else mkRat (signIt (mantNum * 10 ^ digitsVal ed)) mantDen))
      | _ => none

/-- Decimal rendering of a rational whose denominator divides a power of
ten, mirroring Rust `Display` for finite `f64` values (`5.0` prints as `5`,
`2.5` as `2.5`). -/
def ratDisplay (q : ℚ) : String :=
  let sign := if q.num < 0 then "-" else ""
  let n := q.num.natAbs
  match (List.range 31).find? (fun k => decide (q.den ∣ 10 ^ k)) with
  | some k =>
    if k = 0 then sign ++ toString n
    else
      let scaled : Nat := n * (10 ^ k / q.den)
      let digits := toString scaled
      let digits := String.mk (List.replicate (k + 1 - digits.length) '0') ++ digits
      sign ++ digits.take (digits.length - k) ++ "." ++ digits.drop (digits.length - k)
  | none => sign ++ toString n ++ "/" ++ toString q.den

/-- Rust `Display` for the modelled `f64` values. -/
def FVal.display : FVal → String
  | .nan => "NaN"
  | .inf => "inf"
  | .negInf => "-inf"
  | .fin q => ratDisplay q

/-- Splitting a character list at every occurrence of a separator sequence,
with the same semantics as Rust `str::split` (an empty input yields one
empty piece); the fuel argument is the input length. -/
def splitOnSeqFuel (sep : List Char) : Nat → List Char → List (List Char)
  | _, [] => [[]]
  | 0, l => [l]
  | f + 1, c :: rest =>
    if sep.isPrefixOf (c :: rest) then
      [] :: splitOnSeqFuel sep f ((c :: rest).drop sep.length)
    else
      match splitOnSeqFuel sep f rest with
      | [] => [[c]]
      | h :: t => (c :: h) :: t

/-- Model of Rust `str::split` on a non-empty separator string. -/
def splitOnStr (s : String) (sep : String) : List String :=
  (splitOnSeqFuel sep.data s.data.length s.data).map (fun l => String.mk l)

/-- Abstract syntax for the subset of the Rust `regex` crate modelled here:
literal characters, the any-character dot, character classes with ranges and
negation, concatenation, alternation, Kleene star, and the `^` / `$`
anchors.  `+` and `?` are desugared during parsing. -/
inductive Re
  | eps
  | char (c : Char)
  | dot
  | cls (neg : Bool) (ranges : List (Char × Char))
  | concat (a b : Re)
  | alt (a b : Re)
  | star (a : Re)
  | bol
  | eol
deriving DecidableEq

/-- Does character `c` belong to the (possibly negated) class? -/
def clsMatch (neg : Bool) (ranges : List (Char × Char)) (c : Char) : Bool :=
  let inR := ranges.any (fun p => p.1.toNat ≤ c.toNat ∧ c.toNat ≤ p.2.toNat)
  if neg then !inR else inR

/-- Nesting depth of a regex, used as matcher fuel. -/
def Re.depth : Re → Nat
  | .concat a b => max a.depth b.depth + 1
  | .alt a b => max a.depth b.depth + 1
  | .star a => a.depth + 1
  | _ => 1

/-- Matcher state: the flag records whether the current position is offset
zero of the haystack (needed by `^`); the list is the remaining input.
`mpStep fuel r st l` returns every state reachable by matching `r` against a
prefix of `l`.  `fuel` only bounds the regex nesting depth: any fuel at
least `r.depth` gives the exact reachable-state set. -/
def mpStep : Nat → Re → Bool → List Char → List (Bool × List Char)
  | 0, _, _, _ => []
  | _ + 1, .eps, st, l => [(st, l)]
  | _ + 1, .char c, _, l =>
    match l with
    | [] => []
    | x :: xs => if x = c then [(false, xs)] else []
  | _ + 1, .dot, _, l =>
    match l with
    | [] => []
    | x :: xs => if x = '\n' then [] else [(false, xs)]
  | _ + 1, .cls n rs, _, l =>
    match l with
    | [] => []
    | x :: xs => if clsMatch n rs x then [(false, xs)] else []
  | _ + 1, .bol, st, l => if st then [(st, l)] else []
  | _ + 1, .eol, st, l => if l = [] then [(st, l)] else []
  | f + 1, .concat a b, st, l => (mpStep f a st l).flatMap (fun p => mpStep f b p.1 p.2)
  | f + 1, .alt a b, st, l => mpStep f a st l ++ mpStep f b st l
  | f + 1, .star a, st, l =>
    (List.range (2 * l.length + 2)).foldl
      (fun acc _ =>
        let next := (acc.flatMap (fun p => mpStep f a p.1 p.2)).filter (fun p => decide (p ∉ acc))
        acc ++ next)
      [(st, l)]

/-- All start states `is_match` tries: offset zero (flagged) and every later
suffix. -/
def startStates (l : List Char) : List (Bool × List Char) :=
  (true, l) :: l.tails.tail.map (fun r => (false, r))

/-- Model of `Regex::is_match`: the pattern matches some substring of the
haystack. -/
def Re.isMatch (r : Re) (s : String) : Bool :=
  (startStates s.data).any (fun p => !(mpStep r.depth r p.1 p.2).isEmpty)

/-- Meaning of an escape sequence outside a character class. -/
def escapeRe (c : Char) : Except String Re :=
  if c = 'd' then .ok (.cls false [('0', '9')])
  else if c = 'D' then .ok (.cls true [('0', '9')])
  else if c = 'w' then .ok (.cls false [('a', 'z'), ('A', 'Z'), ('0', '9'), ('_', '_')])
  else if c = 'W' then .ok (.cls true [('a', 'z'), ('A', 'Z'), ('0', '9'), ('_', '_')])
  else if c = 's' then
    .ok (.cls false [(' ', ' '), ('\t', '\t'), ('\n', '\n'), ('\x0b', '\x0b'),
      ('\x0c', '\x0c'), ('\r', '\r')])
  else if c = 'S' then
    .ok (.cls true [(' ', ' '), ('\t', '\t'), ('\n', '\n'), ('\x0b', '\x0b'),
      ('\x0c', '\x0c'), ('\r', '\r')])
  else if c = 'n' then .ok (.char '\n')
  else if c = 't' then .ok (.char '\t')
  else if c = 'r' then .ok (.char '\r')
  else if c.isAlphanum then .error "unrecognized escape sequence"
  else .ok (.char c)

/-- One literal member of a character class (possibly escaped). -/
def classItemChar (l : List Char) : Except String (Char × List Char) :=
  match l with
  | [] => .error "unclosed character class"
  | '\\' :: [] => .error "unclosed character class"
  | '\\' :: c :: rest =>
    if c = 'n' then .ok ('\n', rest)
    else if c = 't' then .ok ('\t', rest)
    else if c = 'r' then .ok ('\r', rest)
    else if c.isAlphanum then .error "unrecognized escape sequence"
    else .ok (c, rest)
  | c :: rest => .ok (c, rest)

/-- Members of a character class up to the closing bracket. -/
def parseClassItems : Nat → List Char → List (Char × Char) →
    Except String (List (Char × Char) × List Char)
  | 0, _, _ => .error "pattern too large"
  | _ + 1, [], _ => .error "unclosed character class"
  | _ + 1, ']' :: rest, acc => .ok (acc.reverse, rest)
  | f + 1, l, acc => do
    let (c1, rest1) ← classItemChar l
    match rest1 with
    | '-' :: ']' :: rest2 => .ok ((('-', '-') :: (c1, c1) :: acc).reverse, rest2)
    | '-' :: rest2 => do
      let (c2, rest3) ← classItemChar rest2
      if c2.toNat < c1.toNat then .error "invalid character class range"
      else parseClassItems f rest3 ((c1, c2) :: acc)
    | _ => parseClassItems f rest1 ((c1, c1) :: acc)

/-- A character class, entered just after the opening bracket. -/
def parseClass (fuel : Nat) (l : List Char) : Except String (Re × List Char) :=
  let negSplit : Bool × List Char :=
    match l with
    | '^' :: r => (true, r)
    | _ => (false, l)
  let leadSplit : List (Char × Char) × List Char :=
    match negSplit.2 with
    | ']' :: r => ([((']' : Char), (']' : Char))], r)
    | _ => ([], negSplit.2)
  match parseClassItems fuel leadSplit.2 leadSplit.1 with
  | .ok (items, rest) => .ok (.cls negSplit.1 items, rest)
  | .error e => .error e

/-- Concatenation of a parsed atom sequence. -/
def seqRe (l : List Re) : Re := l.foldr Re.concat Re.eps

mutual

/-- Alternation level of the pattern grammar. -/
def parseAlt : Nat → List Char → Except String (Re × List Char)
  | 0, _ => .error "pattern too large"
  | f + 1, l => do
    let (r1, rest) ← parseCat f l
    parseAltRest f r1 rest

/-- Remaining `|` branches. -/
def parseAltRest : Nat → Re → List Char → Except String (Re × List Char)
  | 0, _, _ => .error "pattern too large"
  | f + 1, r1, l =>
    match l with
    | '|' :: rest => do
      let (r2, rest2) ← parseCat f rest
      parseAltRest f (.alt r1 r2) rest2
    | _ => .ok (r1, l)

/-- Concatenation level of the pattern grammar. -/
def parseCat : Nat → List Char → Except String (Re × List Char)
  | 0, _ => .error "pattern too large"
  | f + 1, l => parseCatRest f [] l

/-- Atoms of a concatenation until end, `|` or `)`. -/
def parseCatRest : Nat → List Re → List Char → Except String (Re × List Char)
  | 0, _, _ => .error "pattern too large"
  | f + 1, acc, l =>
    match l with
    | [] => .ok (seqRe acc.reverse, l)
    | '|' :: _ => .ok (seqRe acc.reverse, l)
    | ')' :: _ => .ok (seqRe acc.reverse, l)
    | _ => do
      let (r, rest) ← parseRep f l
      parseCatRest f (r :: acc) rest

/-- An atom with its postfix repetition operators. -/
def parseRep : Nat → List Char → Except String (Re × List Char)
  | 0, _ => .error "pattern too large"
  | f + 1, l => do
    let (a, rest) ← parseAtom f l
    parseRepOps f a rest

/-- Postfix `*`, `+`, `?` operators. -/
def parseRepOps : Nat → Re → List Char → Except String (Re × List Char)
  | 0, _, _ => .error "pattern too large"
  | f + 1, a, l =>
    match l with
    | '*' :: rest => parseRepOps f (.star a) rest
    | '+' :: rest => parseRepOps f (.concat a (.star a)) rest
    | '?' :: rest => parseRepOps f (.alt a .eps) rest
    | _ => .ok (a, l)

/-- A single atom: group, class, escape, dot, anchor or literal. -/
def parseAtom : Nat → List Char → Except String (Re × List Char)
  | 0, _ => .error "pattern too large"
  | f + 1, l =>
    match l with
    | [] => .error "unexpected end of pattern"
    | '(' :: rest =>
      match parseAlt f rest with
      | .ok (r, rest2) =>
        match rest2 with
        | ')' :: rest3 => .ok (r, rest3)
        | _ => .error "unclosed group"
      | .error e => .error e
    | ')' :: _ => .error "unopened group"
    | '[' :: rest => parseClass (f + 1) rest
    | '*' :: _ => .error "repetition operator missing expression"
    | '+' :: _ => .error "repetition operator missing expression"
    | '?' :: _ => .error "repetition operator missing expression"
    | '|' :: _ => .error "unexpected alternation"
    | '.' :: rest => .ok (.dot, rest)
    | '^' :: rest => .ok (.bol, rest)
    | '$' :: rest => .ok (.eol, rest)
    | '\\' :: [] => .error "incomplete escape sequence"
    | '\\' :: c :: rest =>
      match escapeRe c with
      | .ok r => .ok (r, rest)
      | .error e => .error e
    | c :: rest => .ok (.char c, rest)

end

/-- Model of `Regex::new`: parse the whole pattern or report a compile
error. -/
def Regex.compile (pattern : String) : Except String Re :=
  match parseAlt (8 * pattern.length + 8) pattern.data with
  | .ok (r, []) => .ok r
  | .ok (_, _) => .error "unopened group"
  | .error e => .error e

/-- Rust `ExpectType`; numeric thresholds are the modelled `f64` values. -/
inductive ExpectType
  | Anything
  | Matches (match_string : String)
  | GreaterThan (num : FVal)
  | LessThan (num : FVal)
deriving DecidableEq

/-- Rust `impl Default for ExpectType`. -/
def ExpectType.default : ExpectType := ExpectType.Anything

/-- Rust `ExpectType::check`: compare raw output against the expectation. -/
def ExpectType.check (e : ExpectType) (val : String) : Except String String :=
  match e with
  | .Anything => .ok val
  | .Matches match_string =>
    match Regex.compile match_string with
    | .error err =>
      .error ("Could not create regex from `" ++ match_string ++ "`.  Error is:" ++ err)
    | .ok regex =>
      if regex.isMatch val then .ok ""
      else .error ("Not matched against `" ++ match_string ++ "`")
  | .GreaterThan num =>
    match parseF64 val with
    | some v =>
      if v.gt num then .ok val
      else .error ("the value `" ++ v.display ++ "` is less than `" ++ num.display ++ "`")
    | none => .error ("Could not parse `" ++ num.display ++ "` as a number")
  | .LessThan num =>
    match parseF64 val with
    | some v =>
      if v.lt num then .ok val
      else .error ("the value `" ++ v.display ++ "` is greater than `" ++ num.display ++ "`")
    | none => .error ("Could not parse `" ++ num.display ++ "` as a number")

/-- hyper 0.11 `Cookie` header value: an ordered list of name/value pairs. -/
abbrev Cookie := List (String × String)

/-- hyper 0.11 `Cookie::set`: replace the value of an existing name or
append a new pair. -/
def cookieSet (c : Cookie) (k v : String) : Cookie :=
  if c.any (fun p => p.1 = k) then
    c.map (fun p => if p.1 = k then (k, v) else p)
  else c ++ [(k, v)]

/-- Rust `str::splitn(2, "=")`: at most two pieces, split at the first
equals sign. -/
def splitn2Eq (s : String) : List String :=
  match splitOnStr s "=" with
  | [] => [s]
  | [x] => [x]
  | x :: rest => [x, String.intercalate "=" rest]

/-- One iteration of the Set-Cookie parsing loop (lines 262-265 of
`step.rs`): split the header value on `;`, keep only the first piece, split
that on the first `=`.  `none` models the `key_value[1]` index-out-of-bounds
panic that fires when the first piece holds no `=`. -/
def parseSetCookieValue (cookie : String) : Option (String × String) :=
  let cookie_parts := splitOnStr cookie ";"
  match splitn2Eq (cookie_parts.headD "") with
  | [k, v] => some (k, v)
  | _ => none

/-- The whole Set-Cookie loop: fold every header value into one fresh
cookie set; `none` models a panic on any value. -/
def processSetCookies (headers : List String) : Option Cookie :=
  headers.foldl
    (fun acc h => acc.bind (fun c => (parseSetCookieValue h).map (fun kv => cookieSet c kv.1 kv.2)))
    (some [])

/-- The process-wide `COOKIES` jar: hostname to persisted cookie set. -/
abbrev Jar := String → Option Cookie

/-- The jar at process start. -/
def emptyJar : Jar := fun _ => none

/-- `CHashMap::insert`: full overwrite of one hostname entry. -/
def jarInsert (j : Jar) (k : String) (v : Cookie) : Jar :=
  fun k2 => if k2 = k then some v else j k2

/-- Result of `reqwest::Url::from_str` as this model keeps it: the original
text and the extracted host, if any. -/
structure ParsedUrl where
  raw : String
  host : Option String
deriving DecidableEq

/-- Model of `reqwest::Url::from_str` restricted to the URL shapes the
checker meets: the string must carry a `scheme://` prefix; the host is the
authority up to the first `/` or `:` and after any userinfo `@`; the `file`
scheme yields a URL without a host. -/
def parseUrl (s : String) : Except String ParsedUrl :=
  match splitOnStr s "://" with
  | [] => .error "relative URL without a base"
  | [_] => .error "relative URL without a base"
  | scheme :: rest =>
    let after := String.intercalate "://" rest
    let authority := (splitOnStr after "/").headD ""
    let host := (splitOnStr ((splitOnStr authority "@").getLastD authority) ":").headD ""
    if scheme = "" then .error "relative URL without a base"
    else if host = "" then
      if scheme = "file" then .ok { raw := s, host := Option.none }
      else .error "empty host"
    else .ok { raw := s, host := some host }

/-- reqwest `RedirectPolicy`. -/
inductive RedirectPolicy
  | none
  | limited (hops : Nat)
deriving DecidableEq

/-- The piece of the reqwest client this model observes. -/
structure Client where
  redirect : RedirectPolicy
deriving DecidableEq

/-- The client built at the start of every Http run (line 213 of `step.rs`):
redirect following disabled. -/
def httpClient : Client := { redirect := RedirectPolicy.none }

/-- Lines 219-221 of `step.rs`: upgrade the method to POST exactly when a
form body is present and the method is still the default GET. -/
def resolveMethod (form : Option (List (String × String))) (method : Method) : Method :=
  if form ≠ Option.none ∧ method = Method.Get then Method.Post else method

/-- The outgoing request as assembled by lines 223-236 of `step.rs`. -/
structure Request where
  method : Method
  url : ParsedUrl
  basicAuth : Option (String × Option String)
  form : Option (List (String × String))
  cookieHeader : Option Cookie
deriving DecidableEq

/-- Assembly of the outgoing request: method (after the form upgrade),
basic auth when a user was supplied, form body, and the jar's cookie set
for this hostname when one is persisted. -/
def buildRequest (httpops : HttpOptions) (url : ParsedUrl) (jar : Jar) (hostname : String) :
    Request :=
  { method := httpops.method
    url := url
    basicAuth := httpops.user.map (fun u => (u, httpops.pass))
    form := httpops.form
    cookieHeader := jar hostname }

/-- Lines 194-205 of `step.rs`: options synthesized for the bare-URL
shorthand. -/
def defaultHttpOptions (u : String) : HttpOptions :=
  { url := u
    method := Method.Get
    get_output := default_output
    status := default_status
    save_cookies := default_cookies
    user := Option.none
    pass := Option.none
    form := Option.none }

/-- Result of one run: success text, failure message, or an uncaught
panic aborting the process. -/
inductive RunResult
  | ok (val : String)
  | err (msg : String)
  | panic (msg : String)
deriving DecidableEq

/-- Lift a Rust `Result` into a run result. -/
def RunResult.ofExcept : Except String String → RunResult
  | .ok v => .ok v
  | .error e => .err e

/-- What the operating system answers to one shell spawn: the process
output (exit code plus lossily decoded stdout and stderr), or a spawn
error description. -/
structure ProcOutput where
  code : Option Int
  stdoutLossy : String
  stderrLossy : String
deriving DecidableEq

/-- `ExitStatus::success`: true exactly on exit code zero. -/
def ProcOutput.success (o : ProcOutput) : Bool := o.code = some 0

/-- Environment for one Bash run. -/
structure BashEnv where
  spawn : Except String ProcOutput

/-- What the network answers to one executed request: status code, the
result of reading the body as text, and the `Set-Cookie` header values when
that header is present. -/
structure HttpResponse where
  status : Nat
  bodyRead : Except String String
  setCookieHeaders : Option (List String)
deriving DecidableEq

/-- Environment for one Http run: client build outcome, request build
outcome, and the transport's answer. -/
structure HttpEnv where
  buildErr : Option String
  requestBuildErr : Option String
  response : Except String HttpResponse

/-- `sys_info::loadavg` values. -/
structure LoadAvg where
  one : FVal
  five : FVal
  fifteen : FVal

/-- `sys_info::mem_info` values (u64 kilobytes). -/
structure MemInfo where
  total : Nat
  free : Nat
  avail : Nat

/-- `sys_info::disk_info` values. -/
structure DiskInfo where
  total : Nat
  free : Nat

/-- Environment for one System run: each probe's answer, `none` on query
failure. -/
structure SysEnv where
  load : Option LoadAvg
  mem : Option MemInfo
  disk : Option DiskInfo

/-- Environment bundle for one step execution. -/
structure Env where
  bash : BashEnv
  http : HttpEnv
  sys : SysEnv

/-- The Bash arm of `RunType::run` (lines 160-189 of `step.rs`). -/
def bashRun (val : BashVariant) (env : BashEnv) : Except String String :=
  let bashopts :=
    match val with
    | .CmdOnly v => { cmd := v, get_output := default_output : BashOptions }
    | .Options opts => opts
  match env.spawn with
  | .ok output =>
    if output.success then
      if bashopts.get_output then .ok output.stdoutLossy
      else .ok ""
    else
      .error ("Exit Code:" ++ toString (output.code.getD 1) ++ ", StdErr:" ++
        output.stderrLossy ++ ", StdOut:" ++ output.stdoutLossy)
  | .error err => .error ("Err:" ++ err)

/-- The Http arm of `RunType::run` (lines 191-276 of `step.rs`), returning
the run result and the cookie jar after the run. -/
def httpRun (val : HttpVariant) (jar : Jar) (env : HttpEnv) : RunResult × Jar :=
  let httpops :=
    match val with
    | .UrlOnly u => defaultHttpOptions u
    | .Options opts => opts
  let client := httpClient
  match env.buildErr with
  | some e => (.err e, jar)
  | Option.none =>
    match parseUrl httpops.url with
    | .error e => (.err ("Failed to parse url `" ++ httpops.url ++ "`: " ++ e), jar)
    | .ok url =>
      match url.host with
      | Option.none => (.err ("No host could be found for url: " ++ url.raw), jar)
      | some hostname =>
        let httpops := { httpops with method := resolveMethod httpops.form httpops.method }
        let request := buildRequest httpops url jar hostname
        match env.requestBuildErr with
        | some e => (.err e, jar)
        | Option.none =>
          match env.response with
          | .error e => (.err ("Error connecting to url " ++ e), jar)
          | .ok response =>
            if response.status ≠ httpops.status then
              (.err ("returned status `" ++ toString response.status ++
                "` does not match expected `" ++ toString httpops.status ++ "`"), jar)
            else
              match (if httpops.get_output then response.bodyRead else Except.ok "") with
              | .error e => (.err e, jar)
              | .ok output =>
                if httpops.save_cookies then
                  match response.setCookieHeaders with
                  | some cookies =>
                    match processSetCookies cookies with
                    | some new_cookies => (.ok output, jarInsert jar hostname new_cookies)
                    | Option.none =>
                      (.panic "index out of bounds: the len is 1 but the index is 1", jar)
                  | Option.none => (.ok output, jar)
                else (.ok output, jar)

/-- The System arm of `RunType::run` (lines 277-304 of `step.rs`). -/
def systemRun (variant : SystemVariant) (env : SysEnv) : Except String String :=
  match variant with
  | .LoadAvg1m =>
    match env.load with
    | some load => .ok load.one.display
    | Option.none => .error "Could not get load"
  | .LoadAvg5m =>
    match env.load with
    | some load => .ok load.five.display
    | Option.none => .error "Could not get load"
  | .LoadAvg15m =>
    match env.load with
    | some load => .ok load.fifteen.display
    | Option.none => .error "Could not get load"
  | .MemAvailable =>
    match env.mem with
    | some mem => .ok (toString mem.avail)
    | Option.none => .error "Could not get memory"
  | .MemFree =>
    match env.mem with
    | some mem => .ok (toString mem.free)
    | Option.none => .error "Could not get memory"
  | .MemTotal =>
    match env.mem with
    | some mem => .ok (toString mem.total)
    | Option.none => .error "Could not get memory"
  | .DiskTotal =>
    match env.disk with
    | some disk => .ok (toString disk.total)
    | Option.none => .error "Could not get disk"
  | .DiskFree =>
    match env.disk with
    | some disk => .ok (toString disk.free)
    | Option.none => .error "Could not get disk"

/-- Rust `RunType::run`: dispatch to the four strategies. -/
def RunType.run (rt : RunType) (jar : Jar) (env : Env) : RunResult × Jar :=
  match rt with
  | .Value val => (.ok val, jar)
  | .Bash val => (RunResult.ofExcept (bashRun val env.bash), jar)
  | .Http val => httpRun val jar env.http
  | .System variant => (RunResult.ofExcept (systemRun variant env.sys), jar)

/-- Rust `RunType::execute`: run the action, pipe a success through the
expectation, wrap the terminal result with the elapsed duration into an
`Outcome`.  The elapsed wall-clock time is an oracle of the model.  A
panicking run aborts the process and produces no `Outcome` (`none`). -/
def RunType.execute (rt : RunType) (expect : ExpectType) (jar : Jar) (env : Env)
    (elapsed : Duration) : Option (Outcome × Jar) :=
  match rt.run jar env with
  | (.ok val, jar2) => some ({ result := expect.check val, duration := elapsed }, jar2)
  | (.err msg, jar2) => some ({ result := .error msg, duration := elapsed }, jar2)
  | (.panic _, _) => Option.none

/-- Rust `Step`. -/
structure Step where
  name : String
  description : Option String
  run : RunType
  expect : ExpectType
  outcome : Option Outcome
  require : List String
  required_by : List String

/-- The abstract syntax tree the modelled compiler yields for `"^ok$"`. -/
def reAnchoredOk : Re :=
  .concat .bol (.concat (.char 'o') (.concat (.char 'k') (.concat .eol .eps)))

/-- C10: dependency-declaration normalization is a total function with no
error path: a single name yields the one-element sequence with that name, a
list yields the list itself with order preserved, and the declarations
`"db"` and `["db"]` normalize to the identical one-element sequence. -/
theorem requirement_to_vec_normalizes (s : String) (l : List String) :
    (Requirement.Some s).to_vec = [s] ∧
    (Requirement.Many l).to_vec = l ∧
    (Requirement.Some "db").to_vec = (Requirement.Many ["db"]).to_vec :=
  ⟨rfl, rfl, rfl⟩

/-- C8: the bare-command Bash shorthand runs exactly like the options form
with that command and capture-output true, and the bare-URL Http shorthand
runs exactly like the options form with that URL and all defaults (GET,
capture-output true, no cookie persistence, expected status 200, no auth,
no form), in every environment and from every jar state. -/
theorem shorthand_equivalence (c u : String) (jar : Jar) (env : Env) :
    RunType.run (.Bash (.CmdOnly c)) jar env
      = RunType.run (.Bash (.Options { cmd := c, get_output := true })) jar env ∧
    RunType.run (.Http (.UrlOnly u)) jar env
      = RunType.run (.Http (.Options
          { url := u, method := Method.Get, get_output := true,
            save_cookies := false, status := 200, user := Option.none, pass := Option.none,
            form := Option.none })) jar env :=
  ⟨rfl, rfl⟩

/-- C2: the request method resolved by the executor is POST exactly when a
form body is present and the configured method is the default GET, or the
configured method was POST already; an explicitly supplied non-GET method is
never overridden, and without a form the configured method is used
unchanged. -/
theorem method_upgrade (form : Option (List (String × String))) (m : Method) :
    (resolveMethod form m = Method.Post ↔
      (form ≠ Option.none ∧ m = Method.Get) ∨ m = Method.Post) ∧
    (m ≠ Method.Get → resolveMethod form m = m) ∧
    (form = Option.none → resolveMethod form m = m) := by
  by_cases hf : form = Option.none <;> by_cases hm : m = Method.Get <;>
    simp [resolveMethod, hf, hm]

/-- Concrete instances of the method-upgrade rule. -/
theorem method_upgrade_witness :
    resolveMethod (some [("k", "v")]) Method.Get = Method.Post ∧
    resolveMethod Option.none Method.Get = Method.Get ∧
    resolveMethod (some [("k", "v")]) Method.Put = Method.Put :=
  ⟨(method_upgrade (some [("k", "v")]) Method.Get).1.mpr (Or.inl ⟨by simp, rfl⟩),
    (method_upgrade Option.none Method.Get).2.2 rfl,
    (method_upgrade (some [("k", "v")]) Method.Put).2.1 (by simp)⟩

/-- C6: Shell semantics.  Exit code zero with capture-output true succeeds
with the lossily decoded stdout exactly; with capture-output false it
succeeds with empty text; a nonzero exit code fails with a message embedding
the exit code, the captured stderr and the captured stdout; a spawn failure
fails with the OS error description. -/
theorem bash_semantics (opts : BashOptions) (env : BashEnv) :
    (∀ out, env.spawn = .ok out → out.code = some 0 → opts.get_output = true →
      bashRun (.Options opts) env = .ok out.stdoutLossy) ∧
    (∀ out, env.spawn = .ok out → out.code = some 0 → opts.get_output = false →
      bashRun (.Options opts) env = .ok "") ∧
    (∀ out n, env.spawn = .ok out → out.code = some n → n ≠ 0 →
      bashRun (.Options opts) env = .error ("Exit Code:" ++ toString n ++ ", StdErr:" ++
        out.stderrLossy ++ ", StdOut:" ++ out.stdoutLossy)) ∧
    (∀ e, env.spawn = .error e → bashRun (.Options opts) env = .error ("Err:" ++ e)) := by
  refine ⟨?_, ?_, ?_, ?_⟩
  · intro out hs hc hg
    simp [bashRun, hs, hc, hg, ProcOutput.success]
  · intro out hs hc hg
    simp [bashRun, hs, hc, hg, ProcOutput.success]
  · intro out n hs hc hn
    simp [bashRun, hs, hc, hn, ProcOutput.success]
  · intro e hs
    simp [bashRun, hs]

/-- Concrete instances of the Shell semantics. -/
theorem bash_semantics_witness :
    bashRun (.Options { cmd := "ls", get_output := true })
      { spawn := .ok { code := some 0, stdoutLossy := "out", stderrLossy := "" } } = .ok "out" ∧
    bashRun (.Options { cmd := "ls", get_output := false })
      { spawn := .ok { code := some 0, stdoutLossy := "out", stderrLossy := "" } } = .ok "" ∧
    bashRun (.Options { cmd := "ls", get_output := true })
      { spawn := .ok { code := some 2, stdoutLossy := "so", stderrLossy := "se" } }
      = .error "Exit Code:2, StdErr:se, StdOut:so" ∧
    bashRun (.Options { cmd := "ls", get_output := true })
      { spawn := .error "No such file or directory" }
      = .error "Err:No such file or directory" :=
  ⟨(bash_semantics { cmd := "ls", get_output := true } _).1 _ rfl rfl rfl,
    (bash_semantics { cmd := "ls", get_output := false } _).2.1 _ rfl rfl rfl,
    (bash_semantics { cmd := "ls", get_output := true } _).2.2.1 _ 2 rfl rfl (by decide),
    (bash_semantics { cmd := "ls", get_output := true } _).2.2.2 _ rfl⟩

/-- C9: execute composes run with the expectation check.  When the run
stage fails, the outcome's result is that failure message and the
expectation is never consulted (the conclusion holds for every
expectation); when the run succeeds, the result is the evaluator applied to
the raw text.  Either way the outcome carries the elapsed duration of the
call. -/
theorem execute_pipeline (rt : RunType) (expect : ExpectType) (jar : Jar) (env : Env)
    (elapsed : Duration) :
    (∀ msg jar2, rt.run jar env = (.err msg, jar2) →
      rt.execute expect jar env elapsed
        = some ({ result := .error msg, duration := elapsed }, jar2)) ∧
    (∀ val jar2, rt.run jar env = (.ok val, jar2) →
      rt.execute expect jar env elapsed
        = some ({ result := expect.check val, duration := elapsed }, jar2)) := by
  constructor <;> intro a b h <;> simp [RunType.execute, h]

/-- Concrete instances of the execute pipeline. -/
theorem execute_pipeline_witness :
    RunType.execute (.Value "7") (.GreaterThan (.fin 5)) emptyJar
      { bash := { spawn := .error "unused" },
        http :=
          { buildErr := Option.none, requestBuildErr := Option.none,
            response := .error "unused" },
        sys := { load := Option.none, mem := Option.none, disk := Option.none } }
      { secs := 1, nanos := 0 }
      = some ({ result := .ok "7", duration := { secs := 1, nanos := 0 } }, emptyJar) ∧
    RunType.execute (.Bash (.CmdOnly "ls")) (.GreaterThan (.fin 5)) emptyJar
      { bash := { spawn := .error "boom" },
        http :=
          { buildErr := Option.none, requestBuildErr := Option.none,
            response := .error "unused" },
        sys := { load := Option.none, mem := Option.none, disk := Option.none } }
      { secs := 1, nanos := 0 }
      = some ({ result := .error "Err:boom", duration := { secs := 1, nanos := 0 } },
          emptyJar) := by
  constructor
  · have h := (execute_pipeline (.Value "7") (.GreaterThan (.fin 5)) emptyJar
      { bash := { spawn := .error "unused" },
        http :=
          { buildErr := Option.none, requestBuildErr := Option.none,
            response := .error "unused" },
        sys := { load := Option.none, mem := Option.none, disk := Option.none } }
      { secs := 1, nanos := 0 }).2 "7" emptyJar rfl
    rw [h]
    have hc : (ExpectType.GreaterThan (FVal.fin 5)).check "7" = Except.ok "7" := by decide
    rw [hc]
  · exact (execute_pipeline (.Bash (.CmdOnly "ls")) (.GreaterThan (.fin 5)) emptyJar
      { bash := { spawn := .error "boom" },
        http :=
          { buildErr := Option.none, requestBuildErr := Option.none,
            response := .error "unused" },
        sys := { load := Option.none, mem := Option.none, disk := Option.none } }
      { secs := 1, nanos := 0 }).1 "Err:boom" emptyJar rfl

/-- C4: GreaterThan parses the raw text as a 64-bit float.  On parse
failure it fails with a message naming the threshold, not the unparseable
value; on parse success it succeeds exactly when the value exceeds the
threshold, returning the raw text unchanged, and otherwise fails naming
both values.  Concretely, with threshold 5.0 the raw text `"6"` succeeds,
`"5"` fails naming both values, and `"abc"` fails with the parse message. -/
theorem greater_than_check (raw : String) (num : FVal) :
    (parseF64 raw = Option.none →
      ExpectType.check (.GreaterThan num) raw
        = .error ("Could not parse `" ++ num.display ++ "` as a number")) ∧
    (∀ v, parseF64 raw = some v → v.gt num = true →
      ExpectType.check (.GreaterThan num) raw = .ok raw) ∧
    (∀ v, parseF64 raw = some v → v.gt num = false →
      ExpectType.check (.GreaterThan num) raw
        = .error ("the value `" ++ v.display ++ "` is less than `" ++ num.display ++ "`")) ∧
    ExpectType.check (.GreaterThan (.fin 5)) "6" = .ok "6" ∧
    ExpectType.check (.GreaterThan (.fin 5)) "5"
      = .error "the value `5` is less than `5`" ∧
    ExpectType.check (.GreaterThan (.fin 5)) "abc"
      = .error "Could not parse `5` as a number" := by
  refine ⟨?_, ?_, ?_, by decide, by decide, by decide⟩
  · intro h
    simp [ExpectType.check, h]
  · intro v hv hgt
    simp [ExpectType.check, hv, hgt]
  · intro v hv hgt
    simp [ExpectType.check, hv, hgt]

/-- Concrete instances of the GreaterThan check. -/
theorem greater_than_check_witness :
    ExpectType.check (.GreaterThan (.fin (mkRat 5 2))) "abc"
      = .error "Could not parse `2.5` as a number" ∧
    ExpectType.check (.GreaterThan (.fin (mkRat 5 2))) "3" = .ok "3" ∧
    ExpectType.check (.GreaterThan (.fin (mkRat 5 2))) "2"
      = .error "the value `2` is less than `2.5`" :=
  ⟨(greater_than_check "abc" (.fin (mkRat 5 2))).1 (by decide),
    (greater_than_check "3" (.fin (mkRat 5 2))).2.1 (.fin 3) (by decide) (by decide),
    (greater_than_check "2" (.fin (mkRat 5 2))).2.2.1 (.fin 2) (by decide) (by decide)⟩

/-- C5: for an Http action whose response status differs from the expected
status, the run fails with a message naming both codes, whatever the
response body read would have produced and whatever the cookie settings
are, and the jar is left untouched — the mismatch is decided before any
body read or cookie handling.  The client the executor builds has redirect
following disabled, so a redirect response surfaces exactly this way. -/
theorem status_mismatch_before_body (opts : HttpOptions) (jar : Jar) (env : HttpEnv)
    (resp : HttpResponse) (u : ParsedUrl) (hostname : String) :
    env.buildErr = Option.none →
    parseUrl opts.url = .ok u →
    u.host = some hostname →
    env.requestBuildErr = Option.none →
    env.response = .ok resp →
    resp.status ≠ opts.status →
    httpRun (.Options opts) jar env
      = (.err ("returned status `" ++ toString resp.status ++
          "` does not match expected `" ++ toString opts.status ++ "`"), jar) ∧
    httpClient.redirect = RedirectPolicy.none := by
  intro h1 h2 h3 h4 h5 h6
  exact ⟨by simp [httpRun, h1, h2, h3, h4, h5, h6], rfl⟩

/-- Concrete instance: a 301 redirect response against the default expected
status 200 fails naming both codes, with a body read that would fail and a
Set-Cookie value that would panic the cookie parser, neither of which is
reached. -/
theorem status_mismatch_before_body_witness :
    httpRun (.Options
        { url := "http://example.com", method := Method.Get, get_output := true,
          save_cookies := true, status := 200, user := Option.none, pass := Option.none,
          form := Option.none }) emptyJar
      { buildErr := Option.none, requestBuildErr := Option.none,
        response := .ok
          { status := 301, bodyRead := .error "read failure",
            setCookieHeaders := some ["flag"] } }
      = (.err "returned status `301` does not match expected `200`", emptyJar) ∧
    httpClient.redirect = RedirectPolicy.none :=
  status_mismatch_before_body
    { url := "http://example.com", method := Method.Get, get_output := true,
      save_cookies := true, status := 200, user := Option.none, pass := Option.none,
      form := Option.none } emptyJar
    { buildErr := Option.none, requestBuildErr := Option.none,
      response := .ok
        { status := 301, bodyRead := .error "read failure",
          setCookieHeaders := some ["flag"] } }
    { status := 301, bodyRead := .error "read failure", setCookieHeaders := some ["flag"] }
    { raw := "http://example.com", host := some "example.com" } "example.com"
    rfl (by decide) rfl rfl rfl (by decide)

/-- C1 fails on the code: an Http action with persist-cookies true whose
response carries a Set-Cookie value with no equals sign does not surface a
failure Outcome — the parsing loop indexes past the end of the split and
the process aborts (modelled as a panic run result and an absent Outcome). -/
theorem cookie_parse_panic :
    (RunType.run (.Http (.Options
        { url := "http://example.com", method := Method.Get, get_output := true,
          save_cookies := true, status := 200, user := Option.none, pass := Option.none,
          form := Option.none })) emptyJar
      { bash := { spawn := .error "unused" },
        http :=
          { buildErr := Option.none, requestBuildErr := Option.none,
            response := .ok
              { status := 200, bodyRead := .ok "body",
                setCookieHeaders := some ["flag"] } },
        sys := { load := Option.none, mem := Option.none, disk := Option.none } }).1
      = .panic "index out of bounds: the len is 1 but the index is 1" ∧
    RunType.execute (.Http (.Options
        { url := "http://example.com", method := Method.Get, get_output := true,
          save_cookies := true, status := 200, user := Option.none, pass := Option.none,
          form := Option.none })) .Anything emptyJar
      { bash := { spawn := .error "unused" },
        http :=
          { buildErr := Option.none, requestBuildErr := Option.none,
            response := .ok
              { status := 200, bodyRead := .ok "body",
                setCookieHeaders := some ["flag"] } },
        sys := { load := Option.none, mem := Option.none, disk := Option.none } }
      { secs := 0, nanos := 0 }
      = Option.none := by
  constructor
  · decide
  · rfl

/-- C3 fails on the code at this input: the claim says cookie attributes
such as Path and Expires are folded into key/value pairs undiscriminated,
but persisting the Set-Cookie value `a=1; Path=/; Expires=Wed` stores only
the pair `a=1` — everything after the first `;` is discarded, so neither a
`Path` nor an `Expires` pair is present in the overwritten jar entry. -/
theorem cookie_attributes_not_folded :
    (httpRun (.Options
        { url := "http://example.com", method := Method.Get, get_output := true,
          save_cookies := true, status := 200, user := Option.none, pass := Option.none,
          form := Option.none }) emptyJar
      { buildErr := Option.none, requestBuildErr := Option.none,
        response := .ok
          { status := 200, bodyRead := .ok "body",
            setCookieHeaders := some ["a=1; Path=/; Expires=Wed"] } }).2 "example.com"
      = some [("a", "1")] ∧
    (("Path", "/") ∈ ([("a", "1")] : Cookie)) = False ∧
    (("Expires", "Wed") ∈ ([("a", "1")] : Cookie)) = False := by
  refine ⟨by decide, by simp, by simp⟩

/-- C3 amended: each Set-Cookie value is truncated at its first `;` —
attributes such as Path and Expires are discarded, not folded in — and the
leading segment is split on the first `=` into one key/value pair; all
pairs accumulate into one fresh set and the jar's entry for the request's
hostname is fully overwritten with that set (never merged with the previous
entry), while every other hostname's entry is untouched. -/
theorem cookie_persist_overwrites (opts : HttpOptions) (jar : Jar) (env : HttpEnv)
    (resp : HttpResponse) (u : ParsedUrl) (hostname : String) (headers : List String)
    (newCookies : Cookie) (body : String) :
    env.buildErr = Option.none →
    parseUrl opts.url = .ok u →
    u.host = some hostname →
    env.requestBuildErr = Option.none →
    env.response = .ok resp →
    resp.status = opts.status →
    (if opts.get_output then resp.bodyRead else Except.ok "") = .ok body →
    opts.save_cookies = true →
    resp.setCookieHeaders = some headers →
    processSetCookies headers = some newCookies →
    httpRun (.Options opts) jar env = (.ok body, jarInsert jar hostname newCookies) ∧
    (httpRun (.Options opts) jar env).2 hostname = some newCookies ∧
    (∀ k, k ≠ hostname → (httpRun (.Options opts) jar env).2 k = jar k) ∧
    parseSetCookieValue "a=1; Path=/; Expires=Wed" = some ("a", "1") ∧
    parseSetCookieValue "k=v=w" = some ("k", "v=w") := by
  intro h1 h2 h3 h4 h5 h6 h7 h8 h9 h10
  have hrun : httpRun (.Options opts) jar env
      = (.ok body, jarInsert jar hostname newCookies) := by
    simp [httpRun, h1, h2, h3, h4, h5, h6, h7, h8, h9, h10]
  refine ⟨hrun, ?_, ?_, by decide, by decide⟩
  · rw [hrun]
    simp [jarInsert]
  · intro k hk
    rw [hrun]
    simp [jarInsert, hk]

/-- Concrete instance of cookie persistence: two Set-Cookie headers, one
with attributes and a repeated key, persisted over a jar that already held
an entry for this hostname; the entry is replaced, not merged. -/
theorem cookie_persist_overwrites_witness :
    httpRun (.Options
        { url := "http://example.com", method := Method.Get, get_output := true,
          save_cookies := true, status := 200, user := Option.none, pass := Option.none,
          form := Option.none })
      (jarInsert emptyJar "example.com" [("old", "stale")])
      { buildErr := Option.none, requestBuildErr := Option.none,
        response := .ok
          { status := 200, bodyRead := .ok "body",
            setCookieHeaders := some ["a=1; Path=/; Expires=Wed", "b=2"] } }
      = (.ok "body",
          jarInsert (jarInsert emptyJar "example.com" [("old", "stale")]) "example.com"
            [("a", "1"), ("b", "2")]) ∧
    (httpRun (.Options
        { url := "http://example.com", method := Method.Get, get_output := true,
          save_cookies := true, status := 200, user := Option.none, pass := Option.none,
          form := Option.none })
      (jarInsert emptyJar "example.com" [("old", "stale")])
      { buildErr := Option.none, requestBuildErr := Option.none,
        response := .ok
          { status := 200, bodyRead := .ok "body",
            setCookieHeaders := some ["a=1; Path=/; Expires=Wed", "b=2"] } }).2 "example.com"
      = some [("a", "1"), ("b", "2")] := by
  have h := cookie_persist_overwrites
    { url := "http://example.com", method := Method.Get, get_output := true,
      save_cookies := true, status := 200, user := Option.none, pass := Option.none,
      form := Option.none }
    (jarInsert emptyJar "example.com" [("old", "stale")])
    { buildErr := Option.none, requestBuildErr := Option.none,
      response := .ok
        { status := 200, bodyRead := .ok "body",
          setCookieHeaders := some ["a=1; Path=/; Expires=Wed", "b=2"] } }
    { status := 200, bodyRead := .ok "body",
      setCookieHeaders := some ["a=1; Path=/; Expires=Wed", "b=2"] }
    { raw := "http://example.com", host := some "example.com" } "example.com"
    ["a=1; Path=/; Expires=Wed", "b=2"] [("a", "1"), ("b", "2")] "body"
    rfl (by decide) rfl rfl rfl rfl rfl rfl rfl (by decide)
  exact ⟨h.1, h.2.1⟩

theorem mpStep_concat_succ (f : Nat) (a b : Re) (st : Bool) (l : List Char) :
    mpStep (f + 1) (.concat a b) st l
      = (mpStep f a st l).flatMap (fun p => mpStep f b p.1 p.2) := rfl

theorem mpStep_bol_true (f : Nat) (l : List Char) :
    mpStep (f + 1) .bol true l = [(true, l)] := rfl

theorem mpStep_bol_false (f : Nat) (l : List Char) :
    mpStep (f + 1) .bol false l = [] := rfl

theorem mpStep_char_cons (f : Nat) (st : Bool) (c x : Char) (xs : List Char) :
    mpStep (f + 1) (.char c) st (x :: xs) = if x = c then [(false, xs)] else [] := rfl

theorem mpStep_char_nil (f : Nat) (st : Bool) (c : Char) :
    mpStep (f + 1) (.char c) st [] = [] := rfl

theorem mpStep_eol_cons (f : Nat) (st : Bool) (c : Char) (l : List Char) :
    mpStep (f + 1) .eol st (c :: l) = [] := rfl

theorem anchored_ok_false_start (t : List Char) :
    mpStep 5 reAnchoredOk false t = [] := rfl

/-- Against the compiled form of the pattern `"^ok$"`, a match attempt from
offset zero succeeds exactly on the haystack `['o', 'k']`. -/
theorem anchored_ok_chars (l : List Char) :
    (mpStep 5 reAnchoredOk true l).isEmpty = false ↔ l = ['o', 'k'] := by
  constructor
  · intro h
    rcases l with _ | ⟨c, _ | ⟨d, r⟩⟩
    · exact absurd h (by decide)
    · by_cases hc : c = 'o'
      · subst hc
        exact absurd h (by decide)
      · simp [reAnchoredOk, mpStep_concat_succ, mpStep_bol_true, mpStep_char_cons, hc] at h
    · by_cases hc : c = 'o'
      · by_cases hd : d = 'k'
        · subst hc
          subst hd
          rcases r with _ | ⟨e, r2⟩
          · rfl
          · simp [reAnchoredOk, mpStep_concat_succ, mpStep_bol_true, mpStep_char_cons,
              mpStep_eol_cons] at h
        · simp [reAnchoredOk, mpStep_concat_succ, mpStep_bol_true, mpStep_char_cons,
            hc, hd] at h
      · simp [reAnchoredOk, mpStep_concat_succ, mpStep_bol_true, mpStep_char_cons, hc] at h
  · intro h
    subst h
    decide

/-- The compiled `"^ok$"` matches a string exactly when it is `"ok"`. -/
theorem anchored_ok_isMatch (s : String) : Re.isMatch reAnchoredOk s = true ↔ s = "ok" := by
  obtain ⟨l⟩ := s
  constructor
  · intro h
    have h2 : (startStates l).any
        (fun p => !(mpStep 5 reAnchoredOk p.1 p.2).isEmpty) = true := h
    rw [List.any_eq_true] at h2
    obtain ⟨p, hp, hf⟩ := h2
    simp only [startStates, List.mem_cons, List.mem_map] at hp
    rcases hp with rfl | ⟨t, ht, rfl⟩
    · simp only [Bool.not_eq_true', Bool.not_eq_false] at hf
      have := (anchored_ok_chars l).mp (by simpa using hf)
      rw [show ("ok" : String) = String.mk ['o', 'k'] from rfl, this]
    · rw [anchored_ok_false_start t] at hf
      exact absurd hf (by decide)
  · intro h
    rw [h]
    decide

/-- C7: Matches compiles the pattern lazily at check time.  An invalid
pattern fails with a compile-error message; a pattern matching anywhere in
the raw text succeeds with empty final text (the payload is discarded); a
non-matching pattern fails with a message naming it.  Concretely,
`Matches("^ok$")` succeeds exactly on raw text `"ok"`, and `Matches("o")`
succeeds on `"ok"` (substring semantics). -/
theorem matches_check (pattern raw : String) :
    (∀ e, Regex.compile pattern = .error e →
      ExpectType.check (.Matches pattern) raw
        = .error ("Could not create regex from `" ++ pattern ++ "`.  Error is:" ++ e)) ∧
    (∀ r, Regex.compile pattern = .ok r → r.isMatch raw = true →
      ExpectType.check (.Matches pattern) raw = .ok "") ∧
    (∀ r, Regex.compile pattern = .ok r → r.isMatch raw = false →
      ExpectType.check (.Matches pattern) raw
        = .error ("Not matched against `" ++ pattern ++ "`")) ∧
    (ExpectType.check (.Matches "^ok$") raw = .ok "" ↔ raw = "ok") ∧
    ExpectType.check (.Matches "o") "ok" = .ok "" := by
  have compA : Regex.compile "^ok$" = .ok reAnchoredOk := by decide
  have hcheck : ExpectType.check (.Matches "^ok$") raw
      = if reAnchoredOk.isMatch raw then .ok ""
        else .error ("Not matched against `" ++ "^ok$" ++ "`") := by
    simp [ExpectType.check, compA]
  refine ⟨?_, ?_, ?_, ?_, by decide⟩
  · intro e he
    simp [ExpectType.check, he]
  · intro r hr hm
    simp [ExpectType.check, hr, hm]
  · intro r hr hm
    simp [ExpectType.check, hr, hm]
  · constructor
    · intro h
      rw [hcheck] at h
      by_cases hm : reAnchoredOk.isMatch raw = true
      · exact (anchored_ok_isMatch raw).mp hm
      · rw [if_neg hm] at h
        exact absurd h (by simp)
    · intro h
      rw [hcheck, if_pos ((anchored_ok_isMatch raw).mpr h)]

/-- Concrete instances of the Matches check: an invalid pattern, a
matching pattern, and a non-matching pattern. -/
theorem matches_check_witness :
    ExpectType.check (.Matches "(") "anything"
      = .error ("Could not create regex from `(`.  Error is:unclosed group") ∧
    ExpectType.check (.Matches "o") "ok" = .ok "" ∧
    ExpectType.check (.Matches "z") "ok" = .error ("Not matched against `z`") :=
  ⟨(matches_check "(" "anything").1 "unclosed group" (by decide),
    (matches_check "o" "ok").2.1 (.concat (.char 'o') .eps) (by decide) (by decide),
    (matches_check "z" "ok").2.2.1 (.concat (.char 'z') .eps) (by decide) (by decide)⟩

end Lorikeet
